import Mathlib

/-!
Verification development for `partfinder/raxml.py`.

The module under study drives an external phylogenetics binary and parses its
textual report.  We embed the pure content of the module shallowly:

* text is `List Char`; the report scanner built with the pyparsing grammar in
  `Parser.__init__` is embedded as an executable scanner with the library's
  documented semantics (`Literal` matches the literal string after skipping
  whitespace, `SkipTo(e)` stops at the first position where `e` matches,
  `Word(cs)` takes the maximal nonempty run of characters from `cs`,
  `parseString` first expands tabs, a `ParseException` is caught by
  `Parser.parse` and re-raised as `RaxmlError`, while any other exception of a
  parse action - such as the `ValueError` of `float` - propagates);
* numeric values are modelled as exact rationals: `float` applied to a token of
  `Word(nums + ".-")` is embedded as `pyFloat?`, returning the exact decimal
  value of the literal, or `none` where `float` raises `ValueError`;
* the path helpers mirror `posixpath.split`, `posixpath.splitext` and
  `posixpath.join`; `os.path.abspath` (which depends on the process working
  directory) is passed in as a parameter;
* the functions that spawn the external binary are embedded as functions
  returning the command strings they would run, with `raise RaxmlError`
  becoming `Except.error ()`.
-/

set_option maxRecDepth 4000

namespace Raxml

/-! ## Characters and tokens of the grammar -/

/-- Default whitespace characters of the parsing library (space, newline, tab). -/
def isWsChar (c : Char) : Bool := c == ' ' || c == '\n' || c == '\t'

/-- Characters of the numeric token `Word(nums + ".-")`. -/
def isFloatChar (c : Char) : Bool := c.isDigit || c == '.' || c == '-'

/-- First spelling of the log-likelihood label. -/
def LNL_LABEL_1 : List Char := "Final GAMMA  likelihood:".toList

/-- Second spelling of the log-likelihood label. -/
def LNL_LABEL_2 : List Char := "Likelihood:".toList

/-- First spelling of the elapsed-time label. -/
def TIME_LABEL_1 : List Char := "Overall Time for Tree Evaluation".toList

/-- Second spelling of the elapsed-time label. -/
def TIME_LABEL_2 : List Char :=
  "Time for branch length scaler and remaining model parameters optimization:".toList

/-- The tree-length label (single spelling). -/
def TREE_SIZE_LABEL : List Char := "Tree-Length:".toList

/-- The alternation `LNL_LABEL_1 | LNL_LABEL_2`, in match order. -/
def LNL_LABELS : List (List Char) := [LNL_LABEL_1, LNL_LABEL_2]

/-- The alternation `TIME_LABEL_1 | TIME_LABEL_2`, in match order. -/
def TIME_LABELS : List (List Char) := [TIME_LABEL_1, TIME_LABEL_2]

/-- Boolean prefix test on character lists. -/
def isPre : List Char → List Char → Bool
  | [], _ => true
  | _ :: _, [] => false
  | a :: as, b :: bs => a == b && isPre as bs

/-- Scan for the first position where one of the label literals matches and
return the remainder of the text after the matched label.  This is the
combined behaviour of `Suppress(SkipTo(label)) + label` in the grammar. -/
def findLabel (labs : List (List Char)) : List Char → Option (List Char)
  | [] =>
    match labs.find? (fun l => isPre l []) with
    | some lab => some (([] : List Char).drop lab.length)
    | none => none
  | c :: t =>
    match labs.find? (fun l => isPre l (c :: t)) with
    | some lab => some ((c :: t).drop lab.length)
    | none => findLabel labs t

/-- Drop the leading run of whitespace, as the library does before each token. -/
def skipWs (s : List Char) : List Char := s.dropWhile isWsChar

/-- Numeric value of a string of decimal digits. -/
def digitsToNat (ds : List Char) : Nat :=
  ds.foldl (fun n c => 10 * n + (c.toNat - '0'.toNat)) 0

/-- Exact value of the decimal literal with integral part `ip` and fractional
part `fp`: the rational with numerator `ip` followed by `fp` and denominator
ten to the number of fractional digits (see `decimalVal_eq_div`). -/
def decimalVal (ip fp : List Char) : ℚ :=
  mkRat (digitsToNat ip * 10 ^ fp.length + digitsToNat fp) (10 ^ fp.length)

/-- Python `float` on an unsigned token drawn from `Word(nums + ".-")`:
digits with at most one decimal point and at least one digit.  `none` models
`float` raising `ValueError`. -/
def pyFloatBody? (body : List Char) : Option ℚ :=
  let ip := body.takeWhile Char.isDigit
  match body.dropWhile Char.isDigit with
  | [] => if ip.isEmpty then none else some (digitsToNat ip : ℚ)
  | c :: fp =>
    if c == '.' && fp.all Char.isDigit && !(ip.isEmpty && fp.isEmpty) then
      some (decimalVal ip fp)
    else none

/-- Python `float` on a token drawn from `Word(nums + ".-")`: an optional
leading minus sign followed by an unsigned literal. -/
def pyFloat? : List Char → Option ℚ
  | [] => none
  | c :: body =>
    if c = '-' then Option.map Neg.neg (pyFloatBody? body)
    else pyFloatBody? (c :: body)

/-- Outcome of one labelled field of the grammar. -/
inductive FieldResult where
  /-- Label found and the following token converts: value and remaining text. -/
  | ok (q : ℚ) (rest : List Char)
  /-- A `ParseException`: label not found, or no numeric character follows it. -/
  | parseErr
  /-- The token matched but `float` raised `ValueError`. -/
  | valueErr
deriving DecidableEq

/-- One `nextbit(label, val)` step of the grammar: skip to the label, skip
whitespace, take the maximal run of numeric characters, convert with `float`. -/
def parseField (labs : List (List Char)) (s : List Char) : FieldResult :=
  match findLabel labs s with
  | none => .parseErr
  | some rest =>
    let afterWs := skipWs rest
    let tok := afterWs.takeWhile isFloatChar
    let rest2 := afterWs.dropWhile isFloatChar
    if tok.isEmpty then .parseErr
    else
      match pyFloat? tok with
      | none => .valueErr
      | some q => .ok q rest2

/-- The record built by `Parser.parse` on success (`raxmlResult.__init__`
takes `(lnl, tree_size, seconds)`). -/
structure raxmlResult where
  lnl : ℚ
  tree_size : ℚ
  seconds : ℚ
deriving DecidableEq

/-- Observable outcome of `parse`: a result, the module's `RaxmlError`
(raised after catching a `ParseException`), or an uncaught `ValueError`
escaping from the `float` parse action. -/
inductive ParseOutcome where
  | ok (r : raxmlResult)
  | raxmlError
  | valueError
deriving DecidableEq

/-- The `root_parser` pipeline: elapsed time, then likelihood, then tree
length, each with skip-to-label semantics, applied to tab-expanded text. -/
def rootScan (s : List Char) : ParseOutcome :=
  match parseField TIME_LABELS s with
  | .parseErr => .raxmlError
  | .valueErr => .valueError
  | .ok secs r1 =>
    match parseField LNL_LABELS r1 with
    | .parseErr => .raxmlError
    | .valueErr => .valueError
    | .ok lnlv r2 =>
      match parseField [TREE_SIZE_LABEL] r2 with
      | .parseErr => .raxmlError
      | .valueErr => .valueError
      | .ok ts _ => .ok { lnl := lnlv, tree_size := ts, seconds := secs }

/-- Tab expansion performed by `parseString` (tab stops every 8 columns, the
column resets on a newline or carriage return), as in Python `str.expandtabs`. -/
def expandtabsAux : List Char → Nat → List Char
  | [], _ => []
  | c :: r, col =>
    if c = '\t' then
      List.replicate (8 - col % 8) ' ' ++ expandtabsAux r (col + (8 - col % 8))
    else
      c :: expandtabsAux r (if c = '\n' ∨ c = '\r' then 0 else col + 1)

/-- Python `str.expandtabs()` with the default tab size. -/
def expandtabs (s : List Char) : List Char := expandtabsAux s 0

/-- The module-level `parse`: run the grammar on the tab-expanded report text. -/
def parse (s : List Char) : ParseOutcome := rootScan (expandtabs s)

/-! ## Path arithmetic (posixpath) -/

/-- Test whether a path begins with a slash. -/
def headIsSlash : List Char → Bool
  | [] => false
  | c :: _ => c == '/'

/-- Test whether a path ends with a slash. -/
def endsWithSlash (p : List Char) : Bool := headIsSlash p.reverse

/-- Embedding of `posixpath.split`: split at the last slash; trailing slashes
are stripped from the head unless the head consists only of slashes. -/
def os_split (p : List Char) : List Char × List Char :=
  let tail := (p.reverse.takeWhile (fun c => !(c == '/'))).reverse
  let head := p.take (p.length - tail.length)
  let head2 :=
    if head.any (fun c => !(c == '/')) then
      (head.reverse.dropWhile (fun c => c == '/')).reverse
    else head
  (head2, tail)

/-- Embedding of `posixpath.splitext` for names without a slash (the module
only applies it to the tail of `os_split`): split at the last dot, except that
a name whose part before that dot is all dots has no extension. -/
def os_splitext (f : List Char) : List Char × List Char :=
  let extRev := f.reverse.takeWhile (fun c => !(c == '.'))
  if extRev.length == f.length then (f, [])
  else
    let stem := f.take (f.length - extRev.length - 1)
    if stem.all (fun c => c == '.') then (f, [])
    else (stem, f.drop stem.length)

/-- Embedding of `posixpath.join` on two components. -/
def os_join (a b : List Char) : List Char :=
  if headIsSlash b then b
  else if a.isEmpty || endsWithSlash a then a ++ b
  else a ++ '/' :: b

/-! ## Output naming, cleanup and command construction -/

/-- `raxml_analysis_ID`: the alignment base name (extension stripped) joined
with the model name, with a `.txt` suffix. -/
def raxml_analysis_ID (alignment_path model : List Char) : List Char :=
  let file := (os_split alignment_path).2
  let aln_name := (os_splitext file).1
  aln_name ++ '_' :: (model ++ ".txt".toList)

/-- `make_tree_path`: the fixed parsimony-tree name for the branch-length
phase, in the alignment's directory. -/
def make_tree_path (alignment_path : List Char) : List Char :=
  os_join (os_split alignment_path).1 "RAxML_parsimonyTree.BLTREE".toList

/-- `make_output_path`: stats file and result tree file for one analysis,
both in the alignment's directory. -/
def make_output_path (alignment_path model : List Char) : List Char × List Char :=
  let analysis_ID := raxml_analysis_ID alignment_path model
  let dir := (os_split alignment_path).1
  let stats_path := os_join dir ("RAxML_info.".toList ++ analysis_ID)
  let tree_path := os_join dir ("RAxML_result.".toList ++ analysis_ID)
  (stats_path, tree_path)

/-! ### fnmatch

`remove_files` filters the directory listing with
`fnmatch.filter(fnames, '*<analysis_ID>*')`.  We embed `fnmatch.translate`
and matching of the translated pattern (Python 2.7, posix case handling):
`*` becomes `.*`, `?` becomes `.`, a bracket expression becomes a character
class, everything else is a literal; the result is anchored with `$`.  The
dot of the translated regex does not match a newline, and the final `$` also
accepts a single trailing newline. -/

/-- Scan a bracket expression for its closing bracket, returning the content
and the remainder of the pattern. -/
def findClose : List Char → Option (List Char × List Char)
  | [] => none
  | c :: r =>
    if c = ']' then some ([], r)
    else
      match findClose r with
      | none => none
      | some (a, b) => some (c :: a, b)

/-- The part of a bracket expression that belongs to its content even when it
is `!` or `]`: a leading `!` and an immediately following `]`. -/
def bracketPre : List Char → List Char
  | '!' :: ']' :: _ => ['!', ']']
  | '!' :: _ => ['!']
  | ']' :: _ => [']']
  | _ => []

/-- Split a bracket expression as `fnmatch.translate` does: a leading `!` and
an immediately following `]` are part of the content, then scan for the
closing bracket. -/
def splitBracket (ps : List Char) : Option (List Char × List Char) :=
  let pre := bracketPre ps
  match findClose (ps.drop pre.length) with
  | none => none
  | some (a, b) => some (pre ++ a, b)

/-- Tokens of a translated pattern. -/
inductive Tok where
  | lit (c : Char)
  | star
  | any
  | cls (neg : Bool) (set : List Char)
deriving DecidableEq

/-- Embedding of `fnmatch.translate`, producing pattern tokens, with a fuel
argument for structural recursion (the fuel never runs out when it starts at
the pattern length, since a step consumes at least one pattern character).  A
bracket with no closing bracket is a literal `[`. -/
def translateF : Nat → List Char → List Tok
  | 0, _ => []
  | _ + 1, [] => []
  | fuel + 1, c :: r =>
    if c = '*' then .star :: translateF fuel r
    else if c = '?' then .any :: translateF fuel r
    else if c = '[' then
      match splitBracket r with
      | none => .lit '[' :: translateF fuel r
      | some (stuff, rest) =>
        (match stuff with
         | '!' :: st => Tok.cls true st
         | st => Tok.cls false st) :: translateF fuel rest
    else .lit c :: translateF fuel r

/-- Embedding of `fnmatch.translate`. -/
def translate (pat : List Char) : List Tok := translateF pat.length pat

/-- Membership in a character class, with ranges. -/
def matchSet : List Char → Char → Bool
  | a :: '-' :: b :: rest, c => (a ≤ c && c ≤ b) || matchSet rest c
  | a :: rest, c => a == c || matchSet rest c
  | [], _ => false

/-- The suffixes of a name that `.*` can leave behind: the dot of the
translated regex does not match a newline, so the star consumes characters
only up to the first newline. -/
def starSuffixes : List Char → List (List Char)
  | [] => [[]]
  | c :: t => (c :: t) :: (if c == '\n' then [] else starSuffixes t)

/-- Match a translated pattern against a whole name.  The trailing anchor of
the translated regex also accepts an optional final newline. -/
def matchToks : List Tok → List Char → Bool
  | [], s => s.isEmpty || s == ['\n']
  | .star :: ps, s => (starSuffixes s).any (fun t => matchToks ps t)
  | .any :: ps, s =>
    match s with
    | [] => false
    | c :: t => !(c == '\n') && matchToks ps t
  | .cls neg set :: ps, s =>
    match s with
    | [] => false
    | c :: t => (if neg then !(matchSet set c) else matchSet set c) && matchToks ps t
  | .lit c :: ps, s =>
    match s with
    | [] => false
    | d :: t => c == d && matchToks ps t

/-- `fnmatch.fnmatch` on posix: translate the pattern and match the name. -/
def fnmatchB (pat name : List Char) : Bool := matchToks (translate pat) name

/-- `remove_files`: the names in the alignment directory listing that are
removed, namely those matching the pattern `*<analysis_ID>*`. -/
def remove_files (aln_path model : List Char) (fnames : List (List Char)) :
    List (List Char) :=
  let analysis_ID := raxml_analysis_ID aln_path model
  fnames.filter (fun f => fnmatchB ('*' :: (analysis_ID ++ ['*'])) f)

/-! ### Analysis commands

The three functions below return the command lines they would hand to
`run_raxml`; `raise RaxmlError` is `Except.error ()`.  `os.path.abspath` is
taken as a parameter, and `get_model_commandline model` (an external lookup)
is passed in as `model_params`. -/

/-- `make_topology`: on a recognised datatype, the command run and the
parsimony tree path returned; otherwise the `RaxmlError`. -/
def make_topology (abspath : List Char → List Char)
    (alignment_path datatype : List Char) :
    Except Unit (List Char × List Char) :=
  if datatype = "DNA".toList then
    let command := "-y -s '".toList ++ alignment_path ++
      "' -m GTRGAMMA -n MPTREE -p 123456789".toList
    let aln_dir := (os_split alignment_path).1
    let command := command ++ " -w '".toList ++ abspath aln_dir ++ "'".toList
    .ok (command, os_join (os_split alignment_path).1 "RAxML_parsimonyTree.MPTREE".toList)
  else if datatype = "protein".toList then
    let command := "-y -s '".toList ++ alignment_path ++
      "' -m PROTGAMMALG -n MPTREE -p 123456789".toList
    let aln_dir := (os_split alignment_path).1
    let command := command ++ " -w '".toList ++ abspath aln_dir ++ "'".toList
    .ok (command, os_join (os_split alignment_path).1 "RAxML_parsimonyTree.MPTREE".toList)
  else .error ()

/-- Trace of one `make_branch_lengths` call: the `dupfile` copy performed,
the commands handed to `run_raxml`, and the returned tree path. -/
structure BranchLengthsRun where
  copied : List Char × List Char
  commands : List (List Char)
  result : List Char
deriving DecidableEq

/-- `make_branch_lengths`: copy the topology, run the re-estimation command
for a recognised datatype (the two datatype tests are independent `if`
statements, with no `else`), and return the fixed result-tree path. -/
def make_branch_lengths (abspath : List Char → List Char)
    (alignment_path topology_path datatype : List Char) : BranchLengthsRun :=
  let dir_path := (os_split topology_path).1
  let tree_path := os_join dir_path "topology_tree.phy".toList
  let cmdsDNA :=
    if datatype = "DNA".toList then
      ["-f e -s '".toList ++ alignment_path ++ "' -t '".toList ++ tree_path ++
        "' -m GTRGAMMA -n BLTREE -w '".toList ++ abspath dir_path ++ "'".toList]
    else []
  let cmdsProt :=
    if datatype = "protein".toList then
      ["-f e -s '".toList ++ alignment_path ++ "' -t '".toList ++ tree_path ++
        "' -m PROTGAMMALG -n BLTREE -w '".toList ++ abspath dir_path ++ "'".toList]
    else []
  { copied := (topology_path, tree_path)
    commands := cmdsDNA ++ cmdsProt
    result := os_join (os_split alignment_path).1 "RAxML_result.BLTREE".toList }

/-- `analyse`: check the branch-length mode, then build the command handed to
`run_raxml`; an unknown mode raises `RaxmlError` before any command is built. -/
def analyse (abspath : List Char → List Char)
    (model_params model alignment_path tree_path branchlengths : List Char) :
    Except Unit (List Char) :=
  let mk (bl : List Char) : List Char :=
    let analysis_ID := raxml_analysis_ID alignment_path model
    let aln_dir := (os_split alignment_path).1
    ' ' :: (bl ++ " -s '".toList ++ alignment_path ++ "' -t '".toList ++ tree_path ++
      "' ".toList ++ model_params ++ " -n ".toList ++ analysis_ID ++
      " -w '".toList ++ abspath aln_dir ++ "' ".toList)
  if branchlengths = "linked".toList then .ok (mk " -f B ".toList)
  else if branchlengths = "unlinked".toList then .ok (mk " -f e ".toList)
  else .error ()

/-- A nonempty path whose last character is not a slash. -/
def lastNotSlash (d : List Char) : Bool :=
  match d.reverse with
  | [] => false
  | c :: _ => !(c == '/')

/-- Characters without a special meaning in an fnmatch pattern. -/
def notSpecial (c : Char) : Bool := !(c == '*') && !(c == '?') && !(c == '[')

/-- Boolean substring test: some suffix of the text has `a` as a prefix. -/
def isSub (a : List Char) : List Char → Bool
  | [] => a.isEmpty
  | c :: t => isPre a (c :: t) || isSub a t

/-! ## Lemmas about the scanner -/

/-- A list either is empty or does not start with a character satisfying `p`. -/
def headNot (p : Char → Bool) : List Char → Bool
  | [] => true
  | c :: _ => !(p c)

/-- No label of `labs` matches at a position strictly inside `a` (continuing
into `b` where `a` runs out). -/
def noLabelStartIn (labs : List (List Char)) : List Char → List Char → Bool
  | [], _ => true
  | c :: as, b => labs.all (fun l => !(isPre l (c :: (as ++ b)))) && noLabelStartIn labs as b

theorem headNot_false {p : Char → Bool} {c : Char} {t : List Char}
    (hb : headNot p (c :: t) = true) : p c = false := by
  simp only [headNot] at hb
  revert hb
  cases p c <;> simp

theorem takeWhile_app {p : Char → Bool} {a b : List Char}
    (ha : a.all p = true) (hb : headNot p b = true) :
    (a ++ b).takeWhile p = a := by
  induction a with
  | nil =>
    cases b with
    | nil => rfl
    | cons c t => simp [List.takeWhile_cons, headNot_false hb]
  | cons c as ih =>
    simp only [List.all_cons, Bool.and_eq_true] at ha
    simp [List.takeWhile_cons, ha.1, ih ha.2]

theorem dropWhile_app {p : Char → Bool} {a b : List Char}
    (ha : a.all p = true) (hb : headNot p b = true) :
    (a ++ b).dropWhile p = b := by
  induction a with
  | nil =>
    cases b with
    | nil => rfl
    | cons c t => simp [List.dropWhile_cons, headNot_false hb]
  | cons c as ih =>
    simp only [List.all_cons, Bool.and_eq_true] at ha
    simp [List.dropWhile_cons, ha.1, ih ha.2]

theorem isPre_append_self (a b : List Char) : isPre a (a ++ b) = true := by
  induction a with
  | nil => rfl
  | cons c as ih => simp [isPre, ih]

theorem isPre_cons_cons (a b : Char) (l s : List Char) :
    isPre (a :: l) (b :: s) = ((a == b) && isPre l s) := rfl

theorem findLabel_pos {labs : List (List Char)} {s lab : List Char}
    (h : labs.find? (fun l => isPre l s) = some lab) :
    findLabel labs s = some (s.drop lab.length) := by
  cases s with
  | nil => simp only [findLabel]; rw [h]
  | cons c t => simp only [findLabel]; rw [h]

theorem findLabel_neg_cons {labs : List (List Char)} {c : Char} {t : List Char}
    (h : labs.find? (fun l => isPre l (c :: t)) = none) :
    findLabel labs (c :: t) = findLabel labs t := by
  simp only [findLabel]
  rw [h]

theorem findLabel_neg_nil {labs : List (List Char)}
    (h : labs.find? (fun l => isPre l []) = none) :
    findLabel labs [] = none := by
  simp only [findLabel]
  rw [h]

theorem findLabel_append {labs : List (List Char)} {a b : List Char}
    (h : noLabelStartIn labs a b = true) :
    findLabel labs (a ++ b) = findLabel labs b := by
  induction a with
  | nil => rfl
  | cons c as ih =>
    simp only [noLabelStartIn, Bool.and_eq_true] at h
    have hfind : labs.find? (fun l => isPre l (c :: (as ++ b))) = none := by
      rw [List.find?_eq_none]
      intro l hl
      have := (List.all_eq_true.mp h.1) l hl
      simp only [Bool.not_eq_true'] at this
      simp [this]
    calc findLabel labs ((c :: as) ++ b) = findLabel labs (as ++ b) :=
          findLabel_neg_cons hfind
      _ = findLabel labs b := ih h.2

/-! Facts about the concrete label alternations.  `find?` tries the
alternatives in the order of the grammar's `MatchFirst`; the two spellings of
each label start with different characters, so at a given position at most
one of them matches. -/

theorem isPre_T1_T2 (x : List Char) : isPre TIME_LABEL_1 (TIME_LABEL_2 ++ x) = false := by
  have h1 : TIME_LABEL_1 = 'O' :: "verall Time for Tree Evaluation".toList := rfl
  have h2 : TIME_LABEL_2 ++ x = 'T' ::
      ("ime for branch length scaler and remaining model parameters optimization:".toList ++ x) := rfl
  rw [h1, h2, isPre_cons_cons]
  simp [show (('O' == 'T') = false) from rfl]

theorem isPre_L1_L2 (x : List Char) : isPre LNL_LABEL_1 (LNL_LABEL_2 ++ x) = false := by
  have h1 : LNL_LABEL_1 = 'F' :: "inal GAMMA  likelihood:".toList := rfl
  have h2 : LNL_LABEL_2 ++ x = 'L' :: ("ikelihood:".toList ++ x) := rfl
  rw [h1, h2, isPre_cons_cons]
  simp [show (('F' == 'L') = false) from rfl]

theorem find?_time_1 (x : List Char) :
    TIME_LABELS.find? (fun l => isPre l (TIME_LABEL_1 ++ x)) = some TIME_LABEL_1 := by
  simp [TIME_LABELS, isPre_append_self]

theorem find?_time_2 (x : List Char) :
    TIME_LABELS.find? (fun l => isPre l (TIME_LABEL_2 ++ x)) = some TIME_LABEL_2 := by
  simp [TIME_LABELS, isPre_T1_T2, isPre_append_self]

theorem find?_lnl_1 (x : List Char) :
    LNL_LABELS.find? (fun l => isPre l (LNL_LABEL_1 ++ x)) = some LNL_LABEL_1 := by
  simp [LNL_LABELS, isPre_append_self]

theorem find?_lnl_2 (x : List Char) :
    LNL_LABELS.find? (fun l => isPre l (LNL_LABEL_2 ++ x)) = some LNL_LABEL_2 := by
  simp [LNL_LABELS, isPre_L1_L2, isPre_append_self]

theorem find?_tree (x : List Char) :
    [TREE_SIZE_LABEL].find? (fun l => isPre l (TREE_SIZE_LABEL ++ x)) = some TREE_SIZE_LABEL := by
  simp [isPre_append_self]

/-! Facts about the numeric token. -/

theorem pyFloatBody?_floatChars {b : List Char} {q : ℚ}
    (h : pyFloatBody? b = some q) : b.all isFloatChar = true := by
  have hsplit : b.takeWhile Char.isDigit ++ b.dropWhile Char.isDigit = b :=
    List.takeWhile_append_dropWhile Char.isDigit b
  have htw : (b.takeWhile Char.isDigit).all isFloatChar = true := by
    rw [List.all_eq_true]
    intro x hx
    have := List.mem_takeWhile_imp hx
    simp [isFloatChar, this]
  unfold pyFloatBody? at h
  cases hd : b.dropWhile Char.isDigit with
  | nil =>
    rw [hd] at hsplit
    rw [List.append_nil] at hsplit
    rw [← hsplit]
    exact htw
  | cons c fp =>
    rw [hd] at h
    simp only at h
    split at h
    · rename_i hcond
      simp only [Bool.and_eq_true, beq_iff_eq] at hcond
      rw [← hsplit, hd]
      rw [List.all_append]
      simp only [Bool.and_eq_true]
      refine ⟨htw, ?_⟩
      simp only [List.all_cons, Bool.and_eq_true]
      constructor
      · simp [isFloatChar, hcond.1.1]
      · rw [List.all_eq_true]
        intro x hx
        have := (List.all_eq_true.mp hcond.1.2) x hx
        simp [isFloatChar, this]
    · exact absurd h (by simp)

theorem pyFloat?_floatChars {f : List Char} {q : ℚ}
    (h : pyFloat? f = some q) : f.all isFloatChar = true := by
  cases f with
  | nil => exact absurd h (by simp [pyFloat?])
  | cons c body =>
    simp only [pyFloat?] at h
    by_cases hc : c = '-'
    · rw [if_pos hc] at h
      cases hb : pyFloatBody? body with
      | none => rw [hb] at h; exact absurd h (by simp)
      | some q0 =>
        have := pyFloatBody?_floatChars hb
        simp only [List.all_cons, Bool.and_eq_true]
        exact ⟨by simp [isFloatChar, hc], this⟩
    · rw [if_neg hc] at h
      exact pyFloatBody?_floatChars h

theorem floatChar_not_ws {c : Char} (h : isFloatChar c = true) : isWsChar c = false := by
  cases hval : isWsChar c
  · rfl
  · exfalso
    simp only [isWsChar, Bool.or_eq_true, beq_iff_eq] at hval
    rcases hval with (h1 | h1) | h1 <;> rw [h1] at h <;> revert h <;> decide

theorem headNot_ws_of_float {f x : List Char}
    (hne : f.isEmpty = false) (hall : f.all isFloatChar = true) :
    headNot isWsChar (f ++ x) = true := by
  cases f with
  | nil => simp at hne
  | cons c t =>
    simp only [List.all_cons, Bool.and_eq_true] at hall
    simp [headNot, floatChar_not_ws hall.1]

theorem pyFloat?_nonempty {f : List Char} {q : ℚ}
    (h : pyFloat? f = some q) : f.isEmpty = false := by
  cases f with
  | nil => exact absurd h (by simp [pyFloat?])
  | cons c t => rfl

/-- One labelled field of the grammar succeeds on a well-shaped segment:
junk with no label occurrence, the label, whitespace, a convertible numeric
token, and a remainder that does not begin with a numeric character. -/
theorem parseField_structured {labs : List (List Char)} {j lab w f rest : List Char} {q : ℚ}
    (hfind : labs.find? (fun l => isPre l (lab ++ (w ++ (f ++ rest)))) = some lab)
    (hj : noLabelStartIn labs j (lab ++ (w ++ (f ++ rest))) = true)
    (hw : w.all isWsChar = true)
    (hf : pyFloat? f = some q)
    (hrest : headNot isFloatChar rest = true) :
    parseField labs (j ++ (lab ++ (w ++ (f ++ rest)))) = .ok q rest := by
  have hfc := pyFloat?_floatChars hf
  have hfe := pyFloat?_nonempty hf
  unfold parseField
  rw [findLabel_append hj, findLabel_pos hfind, List.drop_left]
  simp only [skipWs]
  rw [dropWhile_app hw (headNot_ws_of_float hfe hfc)]
  rw [takeWhile_app hfc hrest, dropWhile_app hfc hrest]
  simp only [hfe, hf]
  cases f with
  | nil => simp at hfe
  | cons c t => simp [hf]

/-- The full grammar on a well-shaped report: junk, a time label, whitespace,
a numeric token, junk, a likelihood label, whitespace, a numeric token, junk,
the tree-length label, whitespace, a numeric token, and trailing junk, where
no label is matched earlier than intended and no numeric character directly
follows a token. -/
theorem rootScan_structured
    {j0 TL w1 f1 j1 LL w2 f2 j2 w3 f3 j3 : List Char} {q1 q2 q3 : ℚ}
    (hTL : TL = TIME_LABEL_1 ∨ TL = TIME_LABEL_2)
    (hLL : LL = LNL_LABEL_1 ∨ LL = LNL_LABEL_2)
    (hw1 : w1.all isWsChar = true) (hw2 : w2.all isWsChar = true)
    (hw3 : w3.all isWsChar = true)
    (hf1 : pyFloat? f1 = some q1) (hf2 : pyFloat? f2 = some q2)
    (hf3 : pyFloat? f3 = some q3)
    (hj0 : noLabelStartIn TIME_LABELS j0 (TL ++ (w1 ++ (f1 ++ (j1 ++ (LL ++
      (w2 ++ (f2 ++ (j2 ++ (TREE_SIZE_LABEL ++ (w3 ++ (f3 ++ j3))))))))))) = true)
    (hj1 : noLabelStartIn LNL_LABELS j1 (LL ++
      (w2 ++ (f2 ++ (j2 ++ (TREE_SIZE_LABEL ++ (w3 ++ (f3 ++ j3))))))) = true)
    (hj2 : noLabelStartIn [TREE_SIZE_LABEL] j2
      (TREE_SIZE_LABEL ++ (w3 ++ (f3 ++ j3))) = true)
    (hb1 : headNot isFloatChar (j1 ++ (LL ++
      (w2 ++ (f2 ++ (j2 ++ (TREE_SIZE_LABEL ++ (w3 ++ (f3 ++ j3)))))))) = true)
    (hb2 : headNot isFloatChar (j2 ++ (TREE_SIZE_LABEL ++ (w3 ++ (f3 ++ j3)))) = true)
    (hb3 : headNot isFloatChar j3 = true) :
    rootScan (j0 ++ (TL ++ (w1 ++ (f1 ++ (j1 ++ (LL ++ (w2 ++ (f2 ++ (j2 ++
        (TREE_SIZE_LABEL ++ (w3 ++ (f3 ++ j3)))))))))))) =
      .ok { lnl := q2, tree_size := q3, seconds := q1 } := by
  have hfind1 : TIME_LABELS.find? (fun l => isPre l (TL ++ (w1 ++ (f1 ++ (j1 ++ (LL ++
      (w2 ++ (f2 ++ (j2 ++ (TREE_SIZE_LABEL ++ (w3 ++ (f3 ++ j3)))))))))))) = some TL := by
    rcases hTL with h | h <;> subst h
    · exact find?_time_1 _
    · exact find?_time_2 _
  have hfind2 : LNL_LABELS.find? (fun l => isPre l (LL ++
      (w2 ++ (f2 ++ (j2 ++ (TREE_SIZE_LABEL ++ (w3 ++ (f3 ++ j3)))))))) = some LL := by
    rcases hLL with h | h <;> subst h
    · exact find?_lnl_1 _
    · exact find?_lnl_2 _
  unfold rootScan
  rw [parseField_structured hfind1 hj0 hw1 hf1 hb1]
  dsimp only
  rw [parseField_structured hfind2 hj1 hw2 hf2 hb2]
  dsimp only
  rw [parseField_structured (find?_tree _) hj2 hw3 hf3 hb3]

/-- Tab expansion is the identity on tab-free text. -/
theorem expandtabs_of_no_tab {s : List Char}
    (h : s.all (fun c => !(c == '\t')) = true) : expandtabs s = s := by
  suffices haux : ∀ col, expandtabsAux s col = s by exact haux 0
  induction s with
  | nil => intro col; rfl
  | cons c t ih =>
    intro col
    simp only [List.all_cons, Bool.and_eq_true] at h
    have hc : ¬ c = '\t' := by
      intro hcEq
      subst hcEq
      simp at h
    rw [expandtabsAux, if_neg hc]
    rw [ih h.2]

/-! ## Lemmas about the path helpers -/

theorem all_reverse {p : Char → Bool} {l : List Char} (h : l.all p = true) :
    l.reverse.all p = true := by
  rw [List.all_eq_true] at h ⊢
  intro x hx
  exact h x (List.mem_reverse.mp hx)

theorem lastNotSlash_parts {d : List Char} (hd : lastNotSlash d = true) :
    d.isEmpty = false ∧ endsWithSlash d = false := by
  unfold lastNotSlash at hd
  cases hr : d.reverse with
  | nil => rw [hr] at hd; simp at hd
  | cons c t =>
    rw [hr] at hd
    simp only at hd
    constructor
    · cases d with
      | nil => simp at hr
      | cons a u => rfl
    · unfold endsWithSlash
      rw [hr]
      show (c == '/') = false
      revert hd
      cases c == '/' <;> simp

theorem bnot_eq_true {b : Bool} (h : (!b) = true) : b = false := by
  cases b
  · rfl
  · simp at h

theorem os_split_dir_file {d f : List Char}
    (hd : lastNotSlash d = true)
    (hf : f.all (fun c => !(c == '/')) = true) :
    os_split (d ++ '/' :: f) = (d, f) := by
  obtain ⟨c, t, hr, hc⟩ : ∃ c t, d.reverse = c :: t ∧ (c == '/') = false := by
    unfold lastNotSlash at hd
    cases hr : d.reverse with
    | nil => rw [hr] at hd; simp at hd
    | cons c t =>
      rw [hr] at hd
      exact ⟨c, t, rfl, bnot_eq_true hd⟩
  have hrev : (d ++ '/' :: f).reverse = f.reverse ++ '/' :: d.reverse := by
    simp
  have htail : ((d ++ '/' :: f).reverse.takeWhile (fun c => !(c == '/'))).reverse = f := by
    rw [hrev, takeWhile_app (all_reverse hf) (by simp [headNot])]
    simp
  have hlen : (d ++ '/' :: f).length - f.length = d.length + 1 := by
    simp
    omega
  have hhead : (d ++ '/' :: f).take (d.length + 1) = d ++ ['/'] := by
    calc (d ++ '/' :: f).take (d.length + 1)
        = d ++ ('/' :: f).take 1 := List.take_append 1
      _ = d ++ ['/'] := by simp
  have hany : (d ++ ['/']).any (fun c => !(c == '/')) = true := by
    rw [List.any_eq_true]
    refine ⟨c, ?_, by simp [hc]⟩
    have : c ∈ d.reverse := by rw [hr]; exact List.mem_cons_self c t
    exact List.mem_append_left _ (List.mem_reverse.mp this)
  have hstrip : ((d ++ ['/']).reverse.dropWhile (fun c => c == '/')).reverse = d := by
    have h1 : (d ++ ['/']).reverse = '/' :: d.reverse := by simp
    rw [h1, List.dropWhile_cons]
    simp only [show (('/' : Char) == '/') = true from rfl, if_true]
    rw [hr, List.dropWhile_cons, hc]
    simp only [Bool.false_eq_true, if_false]
    rw [← hr]
    simp
  unfold os_split
  simp only [htail, hlen, hhead, hany, hstrip, if_true]

theorem os_splitext_stem {b e : List Char}
    (hb : b.any (fun c => !(c == '.')) = true)
    (he : e.all (fun c => !(c == '.')) = true) :
    os_splitext (b ++ '.' :: e) = (b, '.' :: e) := by
  have hrev : (b ++ '.' :: e).reverse = e.reverse ++ '.' :: b.reverse := by
    simp
  have hext : (b ++ '.' :: e).reverse.takeWhile (fun c => !(c == '.')) = e.reverse := by
    rw [hrev, takeWhile_app (all_reverse he) (by simp [headNot])]
  have hlen3 : (e.length == (b ++ '.' :: e).length) = false := by
    rw [beq_eq_false_iff_ne]
    simp only [List.length_append, List.length_cons]
    omega
  have hstem : (b ++ '.' :: e).take ((b ++ '.' :: e).length - e.length - 1) = b := by
    have harith : (b ++ '.' :: e).length - e.length - 1 = b.length := by
      simp only [List.length_append, List.length_cons]
      omega
    rw [harith]
    exact List.take_left b ('.' :: e)
  have hnotall : b.all (fun c => c == '.') = false := by
    rw [List.any_eq_true] at hb
    obtain ⟨x, hx, hxd⟩ := hb
    cases hall : b.all (fun c => c == '.') with
    | false => rfl
    | true =>
      have := (List.all_eq_true.mp hall) x hx
      rw [this] at hxd
      simp at hxd
  have hdrop : (b ++ '.' :: e).drop b.length = '.' :: e := List.drop_left b ('.' :: e)
  unfold os_splitext
  simp only [hext, List.length_reverse]
  rw [hlen3]
  simp only [Bool.false_eq_true, if_false]
  rw [hstem, hnotall]
  simp only [Bool.false_eq_true, if_false]
  rw [hdrop]

theorem os_join_no_slash {d f : List Char}
    (hd : lastNotSlash d = true) (hf : headIsSlash f = false) :
    os_join d f = d ++ '/' :: f := by
  obtain ⟨h1, h2⟩ := lastNotSlash_parts hd
  unfold os_join
  rw [hf, h1, h2]
  simp

theorem os_join_ne {d A B : List Char}
    (hA : headIsSlash A = false) (hB : headIsSlash B = false) (hAB : A ≠ B) :
    os_join d A ≠ os_join d B := by
  unfold os_join
  rw [hA, hB]
  simp only [Bool.false_eq_true, if_false]
  by_cases hcond : (d.isEmpty || endsWithSlash d) = true
  · rw [if_pos hcond, if_pos hcond]
    intro h
    exact hAB (List.append_cancel_left h)
  · rw [if_neg hcond, if_neg hcond]
    intro h
    have h2 := List.append_cancel_left h
    rw [List.cons.injEq] at h2
    exact hAB h2.2

/-! ## Lemmas about fnmatch patterns built from a literal -/

theorem translate_cons_lit {c : Char} {r : List Char}
    (h1 : ¬ c = '*') (h2 : ¬ c = '?') (h3 : ¬ c = '[') :
    translate (c :: r) = .lit c :: translate r := by
  show translateF (c :: r).length (c :: r) = .lit c :: translate r
  rw [List.length_cons]
  simp only [translateF]
  rw [if_neg h1, if_neg h2, if_neg h3]
  rfl

theorem translate_cons_star (r : List Char) :
    translate ('*' :: r) = .star :: translate r := by
  show translateF ('*' :: r).length ('*' :: r) = .star :: translate r
  rw [List.length_cons]
  simp only [translateF]
  simp [translate]

theorem translate_app_lits {l r : List Char} (h : l.all notSpecial = true) :
    translate (l ++ r) = l.map Tok.lit ++ translate r := by
  induction l with
  | nil => rfl
  | cons c t ih =>
    simp only [List.all_cons, Bool.and_eq_true] at h
    obtain ⟨hc, ht⟩ := h
    simp only [notSpecial, Bool.and_eq_true, Bool.not_eq_true', beq_eq_false_iff_ne] at hc
    rw [List.cons_append, translate_cons_lit hc.1.1 hc.1.2 hc.2, ih ht]
    rfl

theorem starSuffixes_drop_mem {s : List Char} (n : Nat)
    (hnl : s.all (fun c => !(c == '\n')) = true) :
    s.drop n ∈ starSuffixes s := by
  induction s generalizing n with
  | nil => simp [starSuffixes]
  | cons c t ih =>
    simp only [List.all_cons, Bool.and_eq_true] at hnl
    cases n with
    | zero => simp [starSuffixes]
    | succ m =>
      have hc : ¬ ((c == '\n') = true) := by
        rw [Bool.not_eq_true]
        revert hnl
        cases c == '\n' <;> simp
      simp only [List.drop_succ_cons, starSuffixes, if_neg hc]
      exact List.mem_cons_of_mem _ (ih m hnl.2)

theorem starSuffixes_mem_drop {s t : List Char} (h : t ∈ starSuffixes s) :
    ∃ n, t = s.drop n := by
  induction s generalizing t with
  | nil =>
    simp only [starSuffixes, List.mem_singleton] at h
    exact ⟨0, by simp [h]⟩
  | cons c u ih =>
    simp only [starSuffixes] at h
    rcases List.mem_cons.mp h with h1 | h1
    · exact ⟨0, by simp [h1]⟩
    · by_cases hc : (c == '\n') = true
      · rw [if_pos hc] at h1
        simp at h1
      · rw [if_neg hc] at h1
        obtain ⟨n, hn⟩ := ih h1
        exact ⟨n + 1, by simpa using hn⟩

theorem matchToks_star_iff {ps : List Tok} {s : List Char}
    (hnl : s.all (fun c => !(c == '\n')) = true) :
    (matchToks (.star :: ps) s = true ↔ ∃ n, matchToks ps (s.drop n) = true) := by
  rw [matchToks]
  rw [List.any_eq_true]
  constructor
  · rintro ⟨t, ht, hm⟩
    obtain ⟨n, rfl⟩ := starSuffixes_mem_drop ht
    exact ⟨n, hm⟩
  · rintro ⟨n, hn⟩
    exact ⟨s.drop n, starSuffixes_drop_mem n hnl, hn⟩

theorem matchToks_star_nil {s : List Char}
    (hnl : s.all (fun c => !(c == '\n')) = true) :
    matchToks [.star] s = true := by
  refine (matchToks_star_iff hnl).mpr ⟨s.length, ?_⟩
  rw [List.drop_length]
  rfl

theorem matchToks_lits_star {l s : List Char}
    (hnl : s.all (fun c => !(c == '\n')) = true) :
    (matchToks (l.map Tok.lit ++ [Tok.star]) s = true ↔ isPre l s = true) := by
  induction l generalizing s with
  | nil =>
    simp only [List.map_nil, List.nil_append]
    constructor
    · intro _; rfl
    · intro _; exact matchToks_star_nil hnl
  | cons c t ih =>
    cases s with
    | nil =>
      simp only [List.map_cons, List.cons_append]
      rw [matchToks]
      simp [isPre]
    | cons d u =>
      simp only [List.all_cons, Bool.and_eq_true] at hnl
      simp only [List.map_cons, List.cons_append]
      rw [matchToks]
      rw [isPre_cons_cons]
      simp only [Bool.and_eq_true]
      rw [ih hnl.2]

theorem isSub_iff_drop {a s : List Char} :
    (isSub a s = true ↔ ∃ n, isPre a (s.drop n) = true) := by
  induction s with
  | nil =>
    simp only [isSub]
    constructor
    · intro h
      refine ⟨0, ?_⟩
      cases a with
      | nil => rfl
      | cons c t => simp at h
    · rintro ⟨n, hn⟩
      simp only [List.drop_nil] at hn
      cases a with
      | nil => rfl
      | cons c t => simp [isPre] at hn
  | cons c t ih =>
    simp only [isSub, Bool.or_eq_true]
    constructor
    · intro h
      rcases h with h | h
      · exact ⟨0, h⟩
      · obtain ⟨n, hn⟩ := ih.mp h
        exact ⟨n + 1, hn⟩
    · rintro ⟨n, hn⟩
      cases n with
      | zero => exact Or.inl hn
      | succ m => exact Or.inr (ih.mpr ⟨m, hn⟩)

theorem all_drop {p : Char → Bool} {s : List Char} {n : Nat}
    (h : s.all p = true) : (s.drop n).all p = true := by
  rw [List.all_eq_true] at h ⊢
  intro x hx
  exact h x (List.mem_of_mem_drop hx)

theorem bool_eq_of_iff {a b : Bool} (h : a = true ↔ b = true) : a = b := by
  cases a <;> cases b <;> simp_all

/-- On newline-free names, the pattern `*lit*` with a wildcard-free `lit`
matches exactly the names containing `lit` as a substring. -/
theorem fnmatchB_star_lit_star {lit s : List Char}
    (hlit : lit.all notSpecial = true)
    (hnl : s.all (fun c => !(c == '\n')) = true) :
    fnmatchB ('*' :: (lit ++ ['*'])) s = isSub lit s := by
  unfold fnmatchB
  have htr : translate ('*' :: (lit ++ ['*'])) =
      .star :: (lit.map Tok.lit ++ [Tok.star]) := by
    rw [translate_cons_star, translate_app_lits hlit]
    rfl
  rw [htr]
  apply bool_eq_of_iff
  rw [matchToks_star_iff hnl, isSub_iff_drop]
  constructor
  · rintro ⟨n, hn⟩
    exact ⟨n, (matchToks_lits_star (all_drop hnl)).mp hn⟩
  · rintro ⟨n, hn⟩
    exact ⟨n, (matchToks_lits_star (all_drop hnl)).mpr hn⟩

/-! ## Helper facts for the numeric-token theorems -/

theorem decimalVal_eq_div (ip fp : List Char) :
    decimalVal ip fp =
      (digitsToNat ip : ℚ) + (digitsToNat fp : ℚ) / (10 : ℚ) ^ fp.length := by
  unfold decimalVal
  rw [Rat.mkRat_eq_div]
  push_cast
  have h : ((10 : ℚ) ^ fp.length) ≠ 0 := by positivity
  field_simp

theorem decimalVal_nonneg (ip fp : List Char) : 0 ≤ decimalVal ip fp := by
  rw [decimalVal_eq_div]
  have h1 : (0 : ℚ) ≤ (digitsToNat ip : ℚ) := Nat.cast_nonneg _
  have h2 : (0 : ℚ) ≤ (digitsToNat fp : ℚ) / (10 : ℚ) ^ fp.length :=
    div_nonneg (Nat.cast_nonneg _) (by positivity)
  linarith

theorem pyFloatBody?_nonneg {body : List Char} {q : ℚ}
    (h : pyFloatBody? body = some q) : 0 ≤ q := by
  unfold pyFloatBody? at h
  cases hd : body.dropWhile Char.isDigit with
  | nil =>
    rw [hd] at h
    simp only at h
    split at h
    · simp at h
    · rw [Option.some.injEq] at h
      rw [← h]
      exact Nat.cast_nonneg _
  | cons c fp =>
    rw [hd] at h
    simp only at h
    split at h
    · rw [Option.some.injEq] at h
      rw [← h]
      exact decimalVal_nonneg _ _
    · simp at h

theorem eq_false_of_ne_true {b : Bool} (h : ¬ b = true) : b = false := by
  cases b
  · rfl
  · exact absurd rfl h

/-- A field scan raises a `ParseException` (caught by `Parser.parse` and
re-raised as `RaxmlError`) exactly when the label cannot be found, or it is
found but no numeric character follows it. -/
theorem parseField_parseErr_iff (labs : List (List Char)) (s : List Char) :
    (parseField labs s = .parseErr ↔
      findLabel labs s = none ∨
      ∃ rest, findLabel labs s = some rest ∧
        ((skipWs rest).takeWhile isFloatChar).isEmpty = true) := by
  unfold parseField
  cases hfind : findLabel labs s with
  | none => exact ⟨fun _ => Or.inl rfl, fun _ => rfl⟩
  | some rest =>
    dsimp only
    by_cases hemp : ((skipWs rest).takeWhile isFloatChar).isEmpty = true
    · rw [if_pos hemp]
      exact ⟨fun _ => Or.inr ⟨rest, rfl, hemp⟩, fun _ => rfl⟩
    · rw [if_neg hemp]
      cases hp : pyFloat? ((skipWs rest).takeWhile isFloatChar) with
      | none =>
        dsimp only
        constructor
        · intro h
          exact absurd h (by decide)
        · rintro (h | ⟨rest2, hr, he⟩)
          · exact Option.noConfusion h
          · injection hr with hr2
            subst hr2
            exact absurd he hemp
      | some q =>
        dsimp only
        constructor
        · intro h
          exact FieldResult.noConfusion h
        · rintro (h | ⟨rest2, hr, he⟩)
          · exact Option.noConfusion h
          · injection hr with hr2
            subst hr2
            exact absurd he hemp

/-- A field scan lets a `ValueError` escape exactly when the label is found,
a nonempty numeric token follows, and `float` rejects that token. -/
theorem parseField_valueErr_iff (labs : List (List Char)) (s : List Char) :
    (parseField labs s = .valueErr ↔
      ∃ rest, findLabel labs s = some rest ∧
        ((skipWs rest).takeWhile isFloatChar).isEmpty = false ∧
        pyFloat? ((skipWs rest).takeWhile isFloatChar) = none) := by
  unfold parseField
  cases hfind : findLabel labs s with
  | none =>
    constructor
    · intro h
      exact absurd h (by decide)
    · rintro ⟨rest, hr, _, _⟩
      exact Option.noConfusion hr
  | some rest =>
    dsimp only
    by_cases hemp : ((skipWs rest).takeWhile isFloatChar).isEmpty = true
    · rw [if_pos hemp]
      constructor
      · intro h
        exact absurd h (by decide)
      · rintro ⟨rest2, hr, he, _⟩
        injection hr with hr2
        subst hr2
        rw [hemp] at he
        exact Bool.noConfusion he
    · rw [if_neg hemp]
      cases hp : pyFloat? ((skipWs rest).takeWhile isFloatChar) with
      | none =>
        dsimp only
        exact ⟨fun _ => ⟨rest, rfl, eq_false_of_ne_true hemp, hp⟩, fun _ => rfl⟩
      | some q =>
        dsimp only
        constructor
        · intro h
          exact FieldResult.noConfusion h
        · rintro ⟨rest2, hr, _, hp2⟩
          injection hr with hr2
          subst hr2
          rw [hp] at hp2
          exact Option.noConfusion hp2

/-! ## Claim C1 -/

/-- Claim C1, amended.  A report text of the shape junk, time label,
whitespace, numeric token, junk, likelihood label, whitespace, numeric token,
junk, tree-length label, whitespace, numeric token, trailing junk - where no
label occurrence starts inside the junk that is scanned before it, the text
is free of tab characters, and the character directly after each numeric
token (if any) is not a digit, a dot or a dash - parses to exactly the three
token values, with junk before, between and after the labelled values
ignored. -/
theorem parse_structured_report
    {j0 TL w1 f1 j1 LL w2 f2 j2 w3 f3 j3 : List Char} {q1 q2 q3 : ℚ}
    (htab : (j0 ++ (TL ++ (w1 ++ (f1 ++ (j1 ++ (LL ++ (w2 ++ (f2 ++ (j2 ++
      (TREE_SIZE_LABEL ++ (w3 ++ (f3 ++ j3)))))))))))).all
        (fun c => !(c == '\t')) = true)
    (hTL : TL = TIME_LABEL_1 ∨ TL = TIME_LABEL_2)
    (hLL : LL = LNL_LABEL_1 ∨ LL = LNL_LABEL_2)
    (hw1 : w1.all isWsChar = true) (hw2 : w2.all isWsChar = true)
    (hw3 : w3.all isWsChar = true)
    (hf1 : pyFloat? f1 = some q1) (hf2 : pyFloat? f2 = some q2)
    (hf3 : pyFloat? f3 = some q3)
    (hj0 : noLabelStartIn TIME_LABELS j0 (TL ++ (w1 ++ (f1 ++ (j1 ++ (LL ++
      (w2 ++ (f2 ++ (j2 ++ (TREE_SIZE_LABEL ++ (w3 ++ (f3 ++ j3))))))))))) = true)
    (hj1 : noLabelStartIn LNL_LABELS j1 (LL ++
      (w2 ++ (f2 ++ (j2 ++ (TREE_SIZE_LABEL ++ (w3 ++ (f3 ++ j3))))))) = true)
    (hj2 : noLabelStartIn [TREE_SIZE_LABEL] j2
      (TREE_SIZE_LABEL ++ (w3 ++ (f3 ++ j3))) = true)
    (hb1 : headNot isFloatChar (j1 ++ (LL ++
      (w2 ++ (f2 ++ (j2 ++ (TREE_SIZE_LABEL ++ (w3 ++ (f3 ++ j3)))))))) = true)
    (hb2 : headNot isFloatChar (j2 ++ (TREE_SIZE_LABEL ++ (w3 ++ (f3 ++ j3)))) = true)
    (hb3 : headNot isFloatChar j3 = true) :
    parse (j0 ++ (TL ++ (w1 ++ (f1 ++ (j1 ++ (LL ++ (w2 ++ (f2 ++ (j2 ++
        (TREE_SIZE_LABEL ++ (w3 ++ (f3 ++ j3)))))))))))) =
      .ok { lnl := q2, tree_size := q3, seconds := q1 } := by
  unfold parse
  rw [expandtabs_of_no_tab htab]
  exact rootScan_structured hTL hLL hw1 hw2 hw3 hf1 hf2 hf3 hj0 hj1 hj2 hb1 hb2 hb3

/-- Claim C1, counterexample to the unamended claim: this text contains the
three labels exactly once, in the required order, each followed by a
well-formed numeric literal, yet the dash directly after the tree-length
value is absorbed into the numeric token and `parse` raises an uncaught
`ValueError` instead of returning a result. -/
theorem parse_trailing_junk_counterexample :
    parse ("Time for branch length scaler and remaining model parameters " ++
      "optimization: 5 Likelihood: 2 Tree-Length: 3.5-").toList = .valueError := by
  decide

/-- Witness for `parse_structured_report` at a concrete report text. -/
theorem parse_structured_report_witness :
    parse ("run ".toList ++ (TIME_LABEL_1 ++ (" ".toList ++ ("5".toList ++
      (" xx ".toList ++ (LNL_LABEL_2 ++ (" ".toList ++ ("-3.5".toList ++
      (" yy ".toList ++ (TREE_SIZE_LABEL ++ (" ".toList ++ ("7".toList ++
      " zz".toList)))))))))))) =
      .ok { lnl := mkRat (-7) 2, tree_size := 7, seconds := 5 } := by
  refine parse_structured_report ?_ (Or.inl rfl) (Or.inr rfl) ?_ ?_ ?_ ?_ ?_ ?_
    ?_ ?_ ?_ ?_ ?_ ?_
  all_goals decide

/-! ## Claim C2 -/

/-- Claim C2, amended.  The failure behaviour of `parse`, stage by stage
(elapsed time, then likelihood on the remaining text, then tree length on the
remaining text): a stage whose label cannot be found - which covers absent
and out-of-order labels - or whose found label is followed by no numeric
character raises a `ParseException` that `Parser.parse` catches and re-raises
as the module's `RaxmlError`; a stage whose label is followed by a nonempty
run of numeric characters that is not a valid float literal lets the `float`
parse action's `ValueError` escape uncaught instead of the module's parse
error.  A result is returned exactly when all three stages succeed, so no
failing text yields a result, partial or otherwise.  The last two conjuncts
characterise the two failure kinds of a stage. -/
theorem parse_failure_modes (t : List Char) :
    (parseField TIME_LABELS (expandtabs t) = .parseErr → parse t = .raxmlError)
    ∧ (parseField TIME_LABELS (expandtabs t) = .valueErr → parse t = .valueError)
    ∧ (∀ q r, parseField TIME_LABELS (expandtabs t) = .ok q r →
        (parseField LNL_LABELS r = .parseErr → parse t = .raxmlError)
        ∧ (parseField LNL_LABELS r = .valueErr → parse t = .valueError)
        ∧ (∀ q2 r2, parseField LNL_LABELS r = .ok q2 r2 →
            (parseField [TREE_SIZE_LABEL] r2 = .parseErr → parse t = .raxmlError)
            ∧ (parseField [TREE_SIZE_LABEL] r2 = .valueErr → parse t = .valueError)
            ∧ (∀ q3 r3, parseField [TREE_SIZE_LABEL] r2 = .ok q3 r3 →
                parse t = .ok { lnl := q2, tree_size := q3, seconds := q })))
    ∧ (∀ labs s, parseField labs s = .parseErr ↔
        findLabel labs s = none ∨
        ∃ rest, findLabel labs s = some rest ∧
          ((skipWs rest).takeWhile isFloatChar).isEmpty = true)
    ∧ (∀ labs s, parseField labs s = .valueErr ↔
        ∃ rest, findLabel labs s = some rest ∧
          ((skipWs rest).takeWhile isFloatChar).isEmpty = false ∧
          pyFloat? ((skipWs rest).takeWhile isFloatChar) = none) := by
  refine ⟨?_, ?_, ?_, parseField_parseErr_iff, parseField_valueErr_iff⟩
  · intro h
    unfold parse rootScan
    rw [h]
  · intro h
    unfold parse rootScan
    rw [h]
  · intro q r h1
    refine ⟨?_, ?_, ?_⟩
    · intro h2
      unfold parse rootScan
      rw [h1]
      dsimp only
      rw [h2]
    · intro h2
      unfold parse rootScan
      rw [h1]
      dsimp only
      rw [h2]
    · intro q2 r2 h2
      refine ⟨?_, ?_, ?_⟩
      · intro h3
        unfold parse rootScan
        rw [h1]
        dsimp only
        rw [h2]
        dsimp only
        rw [h3]
      · intro h3
        unfold parse rootScan
        rw [h1]
        dsimp only
        rw [h2]
        dsimp only
        rw [h3]
      · intro q3 r3 h3
        unfold parse rootScan
        rw [h1]
        dsimp only
        rw [h2]
        dsimp only
        rw [h3]

/-- Claim C2, counterexample to the unamended claim: after the time label the
maximal numeric-character token is `..`, which `float` rejects, so `parse`
raises an uncaught `ValueError` rather than the module's parse error. -/
theorem parse_malformed_literal_counterexample :
    parse "Overall Time for Tree Evaluation .. Likelihood: 1 Tree-Length: 2".toList =
      .valueError := by
  decide

/-- Witness for `parse_failure_modes`: a label followed by no numeric
character yields `RaxmlError`; labels out of the required order (the
tree-length label appearing only before the others) yield `RaxmlError`; a
numeric-character token that is not a float literal yields the uncaught
`ValueError`. -/
theorem parse_failure_modes_witness :
    parse "Overall Time for Tree Evaluation xx Likelihood: 1 Tree-Length: 2".toList =
      .raxmlError
    ∧ parse "Tree-Length: 9 Overall Time for Tree Evaluation 1 Likelihood: 2".toList =
      .raxmlError
    ∧ parse "Overall Time for Tree Evaluation .- Likelihood: 1 Tree-Length: 2".toList =
      .valueError :=
  ⟨(parse_failure_modes _).1 (by decide),
   (((parse_failure_modes
        "Tree-Length: 9 Overall Time for Tree Evaluation 1 Likelihood: 2".toList).2.2.1
      1 " Likelihood: 2".toList (by decide)).2.2 2 [] (by decide)).1 (by decide),
   (parse_failure_modes _).2.1 (by decide)⟩

/-! ## Claim C3 -/

/-- Claim C3, counterexample to the claim as stated: on the exact scenario
text the dots directly after `10.2` are absorbed into the numeric token
(`Word` takes the maximal run of digits, dots and dashes), `float` raises
`ValueError`, and no result is returned. -/
theorem parse_scenario_counterexample :
    parse ("...Overall Time for Tree Evaluation 12.5 ...Likelihood: " ++
      "-34567.89 ...Tree-Length: 10.2...").toList = .valueError := by
  decide

/-- Claim C3, amended: with a separator before the trailing dots the scenario
behaves as described, returning lnl -34567.89, tree size 10.2 and 12.5
seconds. -/
theorem parse_scenario_amended :
    parse ("...Overall Time for Tree Evaluation 12.5 ...Likelihood: " ++
      "-34567.89 ...Tree-Length: 10.2 ...").toList =
      .ok ⟨mkRat (-3456789) 100, mkRat 51 5, mkRat 25 2⟩ := by
  decide

/-! ## Claim C4 -/

/-- Claim C4, counterexample to the unamended claim: the two elapsed-time
label spellings have different lengths (32 and 75 characters), so a tab
character shared by the two texts is expanded by `parseString` to a
column-dependent number of spaces.  Here the tab lands at column 46 in the
first text (expanding to two spaces and materialising the two-space label
`Final GAMMA  likelihood:`) but at column 89 in the second (expanding to
seven spaces, which does not).  Both parses succeed, with different `lnl`
(9 against 2): the parsed values are not independent of the spelling. -/
theorem parse_tab_label_counterexample :
    parse (TIME_LABEL_1 ++
        " 1 Final GAMMA\tlikelihood: 9 Likelihood: 2 Tree-Length: 3".toList) =
      .ok { lnl := 9, tree_size := 3, seconds := 1 }
    ∧ parse (TIME_LABEL_2 ++
        " 1 Final GAMMA\tlikelihood: 9 Likelihood: 2 Tree-Length: 3".toList) =
      .ok { lnl := 2, tree_size := 3, seconds := 1 } := by
  refine ⟨?_, ?_⟩ <;> decide

/-- Claim C4, amended.  Two tab-free, well-shaped report texts that are
identical except for the spelling chosen for the elapsed-time label and for
the likelihood label parse to equal outcomes (hence equal lnl, tree size and
seconds).  Tab-freedom is forced: the label spellings differ in length, so a
shared tab after them expands to different numbers of spaces and can make the
two texts parse to different values. -/
theorem parse_label_spelling_equivalence
    {j0 TL TLb w1 f1 j1 LL LLb w2 f2 j2 w3 f3 j3 : List Char} {q1 q2 q3 : ℚ}
    (htab : (j0 ++ (TL ++ (w1 ++ (f1 ++ (j1 ++ (LL ++ (w2 ++ (f2 ++ (j2 ++
      (TREE_SIZE_LABEL ++ (w3 ++ (f3 ++ j3)))))))))))).all
        (fun c => !(c == '\t')) = true)
    (htabb : (j0 ++ (TLb ++ (w1 ++ (f1 ++ (j1 ++ (LLb ++ (w2 ++ (f2 ++ (j2 ++
      (TREE_SIZE_LABEL ++ (w3 ++ (f3 ++ j3)))))))))))).all
        (fun c => !(c == '\t')) = true)
    (hTL : TL = TIME_LABEL_1 ∨ TL = TIME_LABEL_2)
    (hTLb : TLb = TIME_LABEL_1 ∨ TLb = TIME_LABEL_2)
    (hLL : LL = LNL_LABEL_1 ∨ LL = LNL_LABEL_2)
    (hLLb : LLb = LNL_LABEL_1 ∨ LLb = LNL_LABEL_2)
    (hw1 : w1.all isWsChar = true) (hw2 : w2.all isWsChar = true)
    (hw3 : w3.all isWsChar = true)
    (hf1 : pyFloat? f1 = some q1) (hf2 : pyFloat? f2 = some q2)
    (hf3 : pyFloat? f3 = some q3)
    (hj0 : noLabelStartIn TIME_LABELS j0 (TL ++ (w1 ++ (f1 ++ (j1 ++ (LL ++
      (w2 ++ (f2 ++ (j2 ++ (TREE_SIZE_LABEL ++ (w3 ++ (f3 ++ j3))))))))))) = true)
    (hj0b : noLabelStartIn TIME_LABELS j0 (TLb ++ (w1 ++ (f1 ++ (j1 ++ (LLb ++
      (w2 ++ (f2 ++ (j2 ++ (TREE_SIZE_LABEL ++ (w3 ++ (f3 ++ j3))))))))))) = true)
    (hj1 : noLabelStartIn LNL_LABELS j1 (LL ++
      (w2 ++ (f2 ++ (j2 ++ (TREE_SIZE_LABEL ++ (w3 ++ (f3 ++ j3))))))) = true)
    (hj1b : noLabelStartIn LNL_LABELS j1 (LLb ++
      (w2 ++ (f2 ++ (j2 ++ (TREE_SIZE_LABEL ++ (w3 ++ (f3 ++ j3))))))) = true)
    (hj2 : noLabelStartIn [TREE_SIZE_LABEL] j2
      (TREE_SIZE_LABEL ++ (w3 ++ (f3 ++ j3))) = true)
    (hb1 : headNot isFloatChar (j1 ++ (LL ++
      (w2 ++ (f2 ++ (j2 ++ (TREE_SIZE_LABEL ++ (w3 ++ (f3 ++ j3)))))))) = true)
    (hb1b : headNot isFloatChar (j1 ++ (LLb ++
      (w2 ++ (f2 ++ (j2 ++ (TREE_SIZE_LABEL ++ (w3 ++ (f3 ++ j3)))))))) = true)
    (hb2 : headNot isFloatChar (j2 ++ (TREE_SIZE_LABEL ++ (w3 ++ (f3 ++ j3)))) = true)
    (hb3 : headNot isFloatChar j3 = true) :
    parse (j0 ++ (TL ++ (w1 ++ (f1 ++ (j1 ++ (LL ++ (w2 ++ (f2 ++ (j2 ++
        (TREE_SIZE_LABEL ++ (w3 ++ (f3 ++ j3)))))))))))) =
      parse (j0 ++ (TLb ++ (w1 ++ (f1 ++ (j1 ++ (LLb ++ (w2 ++ (f2 ++ (j2 ++
        (TREE_SIZE_LABEL ++ (w3 ++ (f3 ++ j3)))))))))))) := by
  unfold parse
  rw [expandtabs_of_no_tab htab, expandtabs_of_no_tab htabb]
  rw [rootScan_structured hTL hLL hw1 hw2 hw3 hf1 hf2 hf3 hj0 hj1 hj2 hb1 hb2 hb3,
    rootScan_structured hTLb hLLb hw1 hw2 hw3 hf1 hf2 hf3 hj0b hj1b hj2 hb1b hb2 hb3]

/-- Witness for `parse_label_spelling_equivalence`: swapping both label
spellings on a concrete report leaves the parse outcome unchanged. -/
theorem parse_label_spelling_equivalence_witness :
    parse ("go ".toList ++ (TIME_LABEL_1 ++ (" ".toList ++ ("4".toList ++
      (" a ".toList ++ (LNL_LABEL_1 ++ (" ".toList ++ ("-2.5".toList ++
      (" b ".toList ++ (TREE_SIZE_LABEL ++ (" ".toList ++ ("9".toList ++
      " c".toList)))))))))))) =
      parse ("go ".toList ++ (TIME_LABEL_2 ++ (" ".toList ++ ("4".toList ++
      (" a ".toList ++ (LNL_LABEL_2 ++ (" ".toList ++ ("-2.5".toList ++
      (" b ".toList ++ (TREE_SIZE_LABEL ++ (" ".toList ++ ("9".toList ++
      " c".toList)))))))))))) := by
  refine parse_label_spelling_equivalence ?_ ?_ (Or.inl rfl) (Or.inr rfl)
    (Or.inl rfl) (Or.inr rfl) ?_ ?_ ?_
    (show pyFloat? "4".toList = some 4 by decide)
    (show pyFloat? "-2.5".toList = some (mkRat (-5) 2) by decide)
    (show pyFloat? "9".toList = some 9 by decide) ?_ ?_ ?_ ?_ ?_ ?_ ?_ ?_ ?_
  all_goals decide

/-! ## Claim C5 -/

/-- Claim C5, amended.  A leading minus sign yields the negation of the
unsigned literal's value - a nonpositive value, strictly negative except for
literals denoting zero such as `-0` (see the counterexample) - and a literal
with a decimal point parses to its exact decimal value (numbers are modelled
as exact rationals). -/
theorem pyFloat_sign_and_precision :
    (∀ body q, pyFloatBody? body = some q → pyFloat? ('-' :: body) = some (-q))
    ∧ (∀ body q, pyFloatBody? body = some q → 0 ≤ q)
    ∧ (∀ body q, pyFloat? ('-' :: body) = some q → q ≤ 0)
    ∧ (∀ ip fp, ip.all Char.isDigit = true → fp.all Char.isDigit = true →
        (ip.isEmpty && fp.isEmpty) = false →
        pyFloat? (ip ++ '.' :: fp) =
          some ((digitsToNat ip : ℚ) + (digitsToNat fp : ℚ) / (10 : ℚ) ^ fp.length)) := by
  have hbody : ∀ ip fp, ip.all Char.isDigit = true → fp.all Char.isDigit = true →
      (ip.isEmpty && fp.isEmpty) = false →
      pyFloatBody? (ip ++ '.' :: fp) = some (decimalVal ip fp) := by
    intro ip fp hip hfp hne
    have hsplit : (ip ++ '.' :: fp).takeWhile Char.isDigit = ip :=
      takeWhile_app hip (by simp [headNot])
    have hsplit2 : (ip ++ '.' :: fp).dropWhile Char.isDigit = '.' :: fp :=
      dropWhile_app hip (by simp [headNot])
    unfold pyFloatBody?
    simp only [hsplit, hsplit2]
    simp [hfp, hne]
  refine ⟨?_, ?_, ?_, ?_⟩
  · intro body q h
    simp [pyFloat?, h]
  · intro body q h
    exact pyFloatBody?_nonneg h
  · intro body q h
    simp only [pyFloat?] at h
    rw [if_pos trivial] at h
    cases hb : pyFloatBody? body with
    | none => rw [hb] at h; simp at h
    | some q0 =>
      rw [hb] at h
      have h2 : -q0 = q := by simpa using h
      rw [← h2]
      exact neg_nonpos_of_nonneg (pyFloatBody?_nonneg hb)
  · intro ip fp hip hfp hne
    cases hip2 : ip with
    | nil =>
      subst hip2
      simp only [List.nil_append]
      simp only [pyFloat?]
      rw [if_neg (by decide)]
      have := hbody [] fp (by decide) hfp (by simpa using hne)
      rw [decimalVal_eq_div] at this
      simpa using this
    | cons c ipt =>
      have hc : ¬ c = '-' := by
        intro hEq
        rw [hip2] at hip
        simp only [List.all_cons, Bool.and_eq_true] at hip
        rw [hEq] at hip
        exact absurd hip.1 (by decide)
      subst hip2
      simp only [List.cons_append]
      simp only [pyFloat?]
      rw [if_neg hc]
      have := hbody (c :: ipt) fp hip hfp hne
      rw [decimalVal_eq_div] at this
      simpa using this

/-- Claim C5, counterexample to the unamended claim: the well-formed literal
`-0` has a leading minus sign but parses to zero, which is not negative. -/
theorem pyFloat_minus_zero_counterexample :
    pyFloat? ('-' :: ['0']) = some 0 ∧ ¬ ((0 : ℚ) < 0) := by
  constructor
  · decide
  · simp

/-- Witness for `pyFloat_sign_and_precision`: the literal `-34567.89` parses
to exactly minus 34567.89 (the rational minus 3456789 over 100). -/
theorem pyFloat_sign_and_precision_witness :
    pyFloat? ('-' :: "34567.89".toList) = some (-(mkRat 3456789 100)) :=
  pyFloat_sign_and_precision.1 "34567.89".toList (mkRat 3456789 100) (by decide)

/-! ## Claim C6 -/

/-- Claim C6.  `analyse` called with a branch-length mode other than
`linked` or `unlinked` raises `RaxmlError` before building any command, so
`run_raxml` is never invoked. -/
theorem analyse_unknown_branchlengths
    (abspath : List Char → List Char)
    (model_params model alignment_path tree_path bl : List Char)
    (h1 : bl ≠ "linked".toList) (h2 : bl ≠ "unlinked".toList) :
    analyse abspath model_params model alignment_path tree_path bl = .error () := by
  unfold analyse
  rw [if_neg h1, if_neg h2]

/-- Witness for `analyse_unknown_branchlengths`. -/
theorem analyse_unknown_branchlengths_witness :
    analyse id [] [] [] [] "bananas".toList = .error () :=
  analyse_unknown_branchlengths id [] [] [] [] "bananas".toList (by decide)
    (by decide)

/-! ## Claim C7 -/

/-- Claim C7, evaluated at the failing input `morphology`.  `make_topology`
raises `RaxmlError` and runs nothing, but `make_branch_lengths` runs no
command, raises no error, and still returns the would-be result-tree path:
the unrecognised datatype is silently swallowed instead of surfaced. -/
theorem make_branch_lengths_silent_unknown_datatype :
    make_topology id "d/a.phy".toList "morphology".toList = .error ()
    ∧ (make_branch_lengths id "d/a.phy".toList "d/t.phy".toList
        "morphology".toList).commands = []
    ∧ (make_branch_lengths id "d/a.phy".toList "d/t.phy".toList
        "morphology".toList).result = "d/RAxML_result.BLTREE".toList := by
  exact ⟨rfl, by decide, by decide⟩

/-! ## Claim C8 -/

/-- Claim C8.  For an alignment `d/b.e` - directory `d` nonempty and not
ending in a slash, file name slash-free, stem `b` containing a non-dot
character, extension `e` dot-free - the analysis ID is `b_<model>.txt`, and
`make_output_path` returns the `RAxML_info.` stats file and `RAxML_result.`
tree file carrying that ID, both in the directory `d`. -/
theorem make_output_path_scheme {d b e m : List Char}
    (hd : lastNotSlash d = true)
    (hfile : (b ++ '.' :: e).all (fun c => !(c == '/')) = true)
    (hb : b.any (fun c => !(c == '.')) = true)
    (he : e.all (fun c => !(c == '.')) = true) :
    raxml_analysis_ID (d ++ '/' :: (b ++ '.' :: e)) m =
      b ++ '_' :: (m ++ ".txt".toList)
    ∧ make_output_path (d ++ '/' :: (b ++ '.' :: e)) m =
        (d ++ '/' :: ("RAxML_info.".toList ++ (b ++ '_' :: (m ++ ".txt".toList))),
         d ++ '/' :: ("RAxML_result.".toList ++ (b ++ '_' :: (m ++ ".txt".toList)))) := by
  have hsplit := os_split_dir_file hd hfile
  have hID : raxml_analysis_ID (d ++ '/' :: (b ++ '.' :: e)) m =
      b ++ '_' :: (m ++ ".txt".toList) := by
    unfold raxml_analysis_ID
    rw [hsplit]
    dsimp only
    rw [os_splitext_stem hb he]
  refine ⟨hID, ?_⟩
  have hinfo : headIsSlash ("RAxML_info.".toList ++
      (b ++ '_' :: (m ++ ".txt".toList))) = false := rfl
  have hres : headIsSlash ("RAxML_result.".toList ++
      (b ++ '_' :: (m ++ ".txt".toList))) = false := rfl
  unfold make_output_path
  rw [hID, hsplit]
  dsimp only
  rw [os_join_no_slash hd hinfo, os_join_no_slash hd hres]

/-- Witness for `make_output_path_scheme` at the alignment `tmp/test.phy`
and model `GTR`. -/
theorem make_output_path_scheme_witness :
    raxml_analysis_ID ("tmp".toList ++ '/' :: ("test".toList ++ '.' :: "phy".toList))
        "GTR".toList =
      "test".toList ++ '_' :: ("GTR".toList ++ ".txt".toList)
    ∧ make_output_path ("tmp".toList ++ '/' :: ("test".toList ++ '.' :: "phy".toList))
        "GTR".toList =
        ("tmp".toList ++ '/' :: ("RAxML_info.".toList ++
          ("test".toList ++ '_' :: ("GTR".toList ++ ".txt".toList))),
         "tmp".toList ++ '/' :: ("RAxML_result.".toList ++
          ("test".toList ++ '_' :: ("GTR".toList ++ ".txt".toList)))) :=
  make_output_path_scheme (by decide) (by decide) (by decide) (by decide)

/-! ## Claim C9 -/

/-- Claim C9, amended.  `remove_files` removes exactly the listed names
matching the shell pattern `*<analysis_ID>*`; when the analysis ID contains
no wildcard character (`*`, `?`, `[`) and the listed names contain no
newline, these are exactly the names containing the analysis ID as a
substring, and every removed name comes from the given directory listing (no
file outside it is touched). -/
theorem remove_files_matching
    (aln_path model : List Char) (fnames : List (List Char))
    (hid : (raxml_analysis_ID aln_path model).all notSpecial = true)
    (hnl : ∀ f ∈ fnames, f.all (fun c => !(c == '\n')) = true) :
    remove_files aln_path model fnames =
      fnames.filter (fun f => isSub (raxml_analysis_ID aln_path model) f)
    ∧ ∀ f ∈ remove_files aln_path model fnames, f ∈ fnames := by
  constructor
  · unfold remove_files
    dsimp only
    refine List.filter_congr ?_
    intro f hf
    exact fnmatchB_star_lit_star hid (hnl f hf)
  · intro f hf
    unfold remove_files at hf
    exact List.mem_of_mem_filter hf

/-- Claim C9, counterexample to the unamended claim: with model `G?R` the
analysis ID `test_G?R.txt` contains a wildcard, the cleanup pattern matches
the listed file `test_GaR.txt`, and that file is removed although its name
does not contain the analysis ID. -/
theorem remove_files_wildcard_counterexample :
    remove_files "d/test.phy".toList "G?R".toList ["test_GaR.txt".toList] =
      ["test_GaR.txt".toList]
    ∧ isSub (raxml_analysis_ID "d/test.phy".toList "G?R".toList)
        "test_GaR.txt".toList = false := by
  refine ⟨?_, ?_⟩ <;> decide

/-- Witness for `remove_files_matching`: of two listed files only the one
whose name contains the analysis ID is removed. -/
theorem remove_files_matching_witness :
    remove_files "d/test.phy".toList "GTR".toList
      ["RAxML_info.test_GTR.txt".toList, "other.txt".toList] =
      ["RAxML_info.test_GTR.txt".toList] := by
  have h := (remove_files_matching "d/test.phy".toList "GTR".toList
    ["RAxML_info.test_GTR.txt".toList, "other.txt".toList] (by decide)
    (by decide)).1
  rw [h]
  decide

/-! ## Claim C10 -/

/-- Claim C10.  `make_tree_path` returns the fixed
`RAxML_parsimonyTree.BLTREE` name joined to the alignment's directory; that
path differs from the `RAxML_result.BLTREE` path returned by
`make_branch_lengths` and from the `RAxML_parsimonyTree.MPTREE` path
returned by `make_topology`, for every alignment path, topology path and
datatype. -/
theorem make_tree_path_distinct
    (abspath abspath2 : List Char → List Char)
    (p topo dt dt2 : List Char) :
    make_tree_path p = os_join (os_split p).1 "RAxML_parsimonyTree.BLTREE".toList
    ∧ make_tree_path p ≠ (make_branch_lengths abspath2 p topo dt2).result
    ∧ (∀ c tp, make_topology abspath p dt = .ok (c, tp) → make_tree_path p ≠ tp) := by
  refine ⟨rfl, ?_, ?_⟩
  · show os_join (os_split p).1 "RAxML_parsimonyTree.BLTREE".toList ≠
      os_join (os_split p).1 "RAxML_result.BLTREE".toList
    exact os_join_ne (by decide) (by decide) (by decide)
  · intro c tp h
    unfold make_topology at h
    by_cases h1 : dt = "DNA".toList
    · rw [if_pos h1] at h
      dsimp only at h
      simp only [Except.ok.injEq, Prod.mk.injEq] at h
      rw [← h.2]
      exact os_join_ne (by decide) (by decide) (by decide)
    · rw [if_neg h1] at h
      by_cases h2 : dt = "protein".toList
      · rw [if_pos h2] at h
        dsimp only at h
        simp only [Except.ok.injEq, Prod.mk.injEq] at h
        rw [← h.2]
        exact os_join_ne (by decide) (by decide) (by decide)
      · rw [if_neg h2] at h
        exact absurd h (by simp)

/-- Witness for `make_tree_path_distinct`: at a concrete alignment the
branch-length phase path produced by `make_topology` differs from
`make_tree_path`. -/
theorem make_tree_path_distinct_witness :
    make_tree_path "d/a.phy".toList ≠ "d/RAxML_parsimonyTree.MPTREE".toList := by
  refine (make_tree_path_distinct id id "d/a.phy".toList "d/t.phy".toList
    "DNA".toList "DNA".toList).2.2
    "-y -s 'd/a.phy' -m GTRGAMMA -n MPTREE -p 123456789 -w 'd'".toList
    "d/RAxML_parsimonyTree.MPTREE".toList ?_
  rfl

end Raxml
